import Mathlib

/-!
# Verification of the Teaching Calculator query-resolution cascade

Shallow embedding of the cascade core of the repository:
`scripts/cascade/calculator_engine.py` (router + executor),
`scripts/cascade/query_cache.py` (QueryCache / SmartCache) and
`scripts/cascade/query_translator.py` (QueryTranslator),
together with theorems settling the specification claims about them.

Python strings are modelled as `List Char`; machine floats that only carry
exact decimal constants and averages are modelled as `ℚ`; wall-clock times
are modelled as an explicit `ℚ` parameter (in hours, matching the
`timedelta(hours=...)` granularity the code uses).  Backend handlers and the
clock are nondeterministic from the cascade's point of view and are passed
in as explicit oracle parameters.
-/

set_option maxRecDepth 4096

namespace Cascade

/-! ## Python string primitives (ASCII fragment actually exercised) -/

/-- `str.lower` on one character (ASCII fragment of Python's Unicode lower). -/
def pyLowerChar (c : Char) : Char :=
  if 'A' ≤ c ∧ c ≤ 'Z' then Char.ofNat (c.toNat + 32) else c

/-- `str.lower`. -/
def pyLower (s : List Char) : List Char := s.map pyLowerChar

/-- Python whitespace (`str.split` / `str.strip` / regex `\s`, ASCII part). -/
def isPySpace (c : Char) : Bool :=
  c = ' ' ∨ c = '\t' ∨ c = '\n' ∨ c = '\x0d' ∨ c = '\x0b' ∨ c = '\x0c'

/-- `str.strip()`: drop leading and trailing whitespace. -/
def pyStrip (s : List Char) : List Char :=
  ((s.dropWhile isPySpace).reverse.dropWhile isPySpace).reverse

/-- `str.rstrip('?')`. -/
def pyRstripQ (s : List Char) : List Char :=
  (s.reverse.dropWhile (fun c => c = '?')).reverse

/-- `str.split()` with no argument: split on whitespace runs, dropping empties. -/
def pySplit (s : List Char) : List (List Char) :=
  let rec go : List Char → List Char → List (List Char)
    | [], acc => if acc.isEmpty then [] else [acc.reverse]
    | c :: rest, acc =>
        if isPySpace c then
          if acc.isEmpty then go rest [] else acc.reverse :: go rest []
        else go rest (c :: acc)
  go s []

/-- `' '.join(parts)`. -/
def joinSpace (parts : List (List Char)) : List Char :=
  match parts with
  | [] => []
  | p :: rest => p ++ (rest.foldl (fun acc q => acc ++ ' ' :: q) [])

/-- Substring containment, Python `needle in haystack`. -/
def containsSub (haystack needle : List Char) : Bool :=
  match haystack with
  | [] => needle.isEmpty
  | _ :: rest => needle.isPrefixOf haystack || containsSub rest needle

/-! ## SHA-256 (`hashlib.sha256`), over `Nat` with explicit `% 2^32` -/

def wordMod : Nat := 4294967296

def rotr32 (n x : Nat) : Nat :=
  ((x >>> n) ||| (x <<< (32 - n))) % wordMod

def sigBig0 (x : Nat) : Nat := rotr32 2 x ^^^ rotr32 13 x ^^^ rotr32 22 x
def sigBig1 (x : Nat) : Nat := rotr32 6 x ^^^ rotr32 11 x ^^^ rotr32 25 x
def sigSmall0 (x : Nat) : Nat := rotr32 7 x ^^^ rotr32 18 x ^^^ (x >>> 3)
def sigSmall1 (x : Nat) : Nat := rotr32 17 x ^^^ rotr32 19 x ^^^ (x >>> 10)

def chFn (x y z : Nat) : Nat := (x &&& y) ^^^ ((x ^^^ 4294967295) &&& z)
def majFn (x y z : Nat) : Nat := (x &&& y) ^^^ (x &&& z) ^^^ (y &&& z)

def sha256K : List Nat :=
  [1116352408, 1899447441, 3049323471, 3921009573, 961987163,
   1508970993, 2453635748, 2870763221, 3624381080, 310598401,
   607225278, 1426881987, 1925078388, 2162078206, 2614888103,
   3248222580, 3835390401, 4022224774, 264347078, 604807628,
   770255983, 1249150122, 1555081692, 1996064986, 2554220882,
   2821834349, 2952996808, 3210313671, 3336571891, 3584528711,
   113926993, 338241895, 666307205, 773529912, 1294757372,
   1396182291, 1695183700, 1986661051, 2177026350, 2456956037,
   2730485921, 2820302411, 3259730800, 3345764771, 3516065817,
   3600352804, 4094571909, 275423344, 430227734, 506948616,
   659060556, 883997877, 958139571, 1322822218, 1537002063,
   1747873779, 1955562222, 2024104815, 2227730452, 2361852424,
   2428436474, 2756734187, 3204031479, 3329325298]

def sha256H0 : List Nat :=
  [1779033703, 3144134277, 1013904242, 2773480762,
   1359893119, 2600822924, 528734635, 1541459225]

/-- Big-endian 64-bit byte decomposition. -/
def be64 (n : Nat) : List Nat :=
  [(n >>> 56) % 256, (n >>> 48) % 256, (n >>> 40) % 256, (n >>> 32) % 256,
   (n >>> 24) % 256, (n >>> 16) % 256, (n >>> 8) % 256, n % 256]

/-- Big-endian 32-bit byte decomposition. -/
def be32 (n : Nat) : List Nat :=
  [(n >>> 24) % 256, (n >>> 16) % 256, (n >>> 8) % 256, n % 256]

/-- SHA-256 padding of a byte message. -/
def sha256Pad (msg : List Nat) : List Nat :=
  let len := msg.length
  let zeros := (119 - len % 64) % 64
  msg ++ 0x80 :: List.replicate zeros 0 ++ be64 (8 * len)

/-- Split a list into chunks of `n` elements (`n > 0` for our uses); the
fuel argument is structural so that the kernel can evaluate it. -/
def chunksOfAux (n : Nat) : Nat → List α → List (List α)
  | 0, _ => []
  | _, [] => []
  | fuel + 1, x :: rest =>
      match n with
      | 0 => []
      | m + 1 => (x :: rest.take m) :: chunksOfAux (m + 1) fuel (rest.drop m)

/-- Split a list into chunks of `n` elements (`n > 0` for our uses). -/
def chunksOf (n : Nat) (l : List α) : List (List α) :=
  chunksOfAux n l.length l

/-- Sixteen big-endian 32-bit words from a 64-byte block. -/
def blockWords (block : List Nat) : List Nat :=
  (chunksOf 4 block).map fun bs =>
    bs.foldl (fun acc b => acc * 256 + b) 0

/-- Extend the 16 message words to the 64-entry schedule. -/
def sha256Schedule (w16 : List Nat) : List Nat :=
  (List.range 64).foldl
    (fun acc t =>
      if t < 16 then acc ++ [w16.getD t 0]
      else
        acc ++ [(sigSmall1 (acc.getD (t - 2) 0) + acc.getD (t - 7) 0 +
                 sigSmall0 (acc.getD (t - 15) 0) + acc.getD (t - 16) 0) % wordMod])
    []

/-- One compression round. -/
def sha256Round (w : List Nat) (st : List Nat) (t : Nat) : List Nat :=
  let a := st.getD 0 0
  let b := st.getD 1 0
  let c := st.getD 2 0
  let d := st.getD 3 0
  let e := st.getD 4 0
  let f := st.getD 5 0
  let g := st.getD 6 0
  let h := st.getD 7 0
  let t1 := (h + sigBig1 e + chFn e f g + sha256K.getD t 0 + w.getD t 0) % wordMod
  let t2 := (sigBig0 a + majFn a b c) % wordMod
  [(t1 + t2) % wordMod, a, b, c, (d + t1) % wordMod, e, f, g]

/-- Compress one 64-byte block into the running hash state. -/
def sha256Block (hs : List Nat) (block : List Nat) : List Nat :=
  let w := sha256Schedule (blockWords block)
  let st := (List.range 64).foldl (sha256Round w) hs
  (hs.zip st).map fun p => (p.1 + p.2) % wordMod

/-- SHA-256 digest of a byte message, as 32 bytes. -/
def sha256 (msg : List Nat) : List Nat :=
  let hs := ((chunksOf 64 (sha256Pad msg)).foldl sha256Block sha256H0)
  hs.foldr (fun h acc => be32 h ++ acc) []

/-- Lowercase hex digit. -/
def hexDigit (n : Nat) : Char :=
  if n < 10 then Char.ofNat ('0'.toNat + n) else Char.ofNat ('a'.toNat + (n - 10))

/-- `hexdigest()`: lowercase hex rendering of a byte list. -/
def hexDigest (bytes : List Nat) : List Char :=
  bytes.foldr (fun b acc => hexDigit (b / 16) :: hexDigit (b % 16) :: acc) []

/-- `str.encode()`: UTF-8 encoding of one character. -/
def utf8Char (c : Char) : List Nat :=
  let n := c.toNat
  if n < 0x80 then [n]
  else if n < 0x800 then
    [0xC0 ||| (n >>> 6), 0x80 ||| (n &&& 0x3F)]
  else if n < 0x10000 then
    [0xE0 ||| (n >>> 12), 0x80 ||| ((n >>> 6) &&& 0x3F), 0x80 ||| (n &&& 0x3F)]
  else
    [0xF0 ||| (n >>> 18), 0x80 ||| ((n >>> 12) &&& 0x3F),
     0x80 ||| ((n >>> 6) &&& 0x3F), 0x80 ||| (n &&& 0x3F)]

/-- `str.encode()` on a whole string. -/
def utf8 (s : List Char) : List Nat := s.foldr (fun c acc => utf8Char c ++ acc) []

/-- `QueryCache._hash_query`: normalise (lowercase, strip) then the first 16
hex characters of the SHA-256 digest. -/
def hash_query (query : List Char) : List Char :=
  let normalized := pyStrip (pyLower query)
  (hexDigest (sha256 (utf8 normalized))).take 16

/-! ## A small regex engine

`query_translator.py` classifies queries with `re.search` over a fixed list
of patterns.  The patterns only use literals, the classes `.` `\s` `\w`,
greedy `+` `*` `?` over those classes, non-capturing alternation and
capturing groups, so we embed exactly that fragment, with Python's
backtracking preference order (leftmost position, greedy repetition,
left alternative first). -/

/-- Regex `\w` (ASCII fragment). -/
def isWordChar (c : Char) : Bool :=
  ('a' ≤ c ∧ c ≤ 'z') ∨ ('A' ≤ c ∧ c ≤ 'Z') ∨ ('0' ≤ c ∧ c ≤ '9') ∨ c = '_'

/-- Single-character classes appearing in the source patterns. -/
inductive CC
  | any
  | ws
  | word
deriving DecidableEq

def ccMatch : CC → Char → Bool
  | .any, c => ¬ (c = '\n')
  | .ws, c => isPySpace c
  | .word, c => isWordChar c

/-- The regex fragment used by the translator's patterns. -/
inductive RE
  | lit (s : List Char)
  | cls (c : CC)
  | seq (a b : RE)
  | alt (a b : RE)
  | opt (a : RE)
  | rep (c : CC) (one : Bool)
  | grp (r : RE)

/-- Try the repetition lengths `lo + e`, `lo + e - 1`, …, `lo`, greedily. -/
def repTryAux (k : List Char → List (List Char) → Option (List (List Char)))
    (s : List Char) (caps : List (List Char)) (lo : Nat) :
    Nat → Option (List (List Char))
  | 0 => k (s.drop lo) caps
  | e + 1 => (k (s.drop (lo + e + 1)) caps) <|> repTryAux k s caps lo e

/-- Backtracking matcher in continuation style.  `caps` accumulates the
captured groups in opening order; the continuation receives the remaining
input and the captures. -/
def reMatch : RE → List Char → List (List Char) →
    (List Char → List (List Char) → Option (List (List Char))) →
    Option (List (List Char))
  | .lit l, s, caps, k => if l.isPrefixOf s then k (s.drop l.length) caps else none
  | .cls c, s, caps, k =>
      match s with
      | [] => none
      | x :: rest => if ccMatch c x then k rest caps else none
  | .seq a b, s, caps, k => reMatch a s caps (fun s2 c2 => reMatch b s2 c2 k)
  | .alt a b, s, caps, k => (reMatch a s caps k) <|> (reMatch b s caps k)
  | .opt a, s, caps, k => (reMatch a s caps k) <|> k s caps
  | .rep c one, s, caps, k =>
      let r := (s.takeWhile (ccMatch c)).length
      let lo := if one then 1 else 0
      if r < lo then none else repTryAux k s caps lo (r - lo)
  | .grp r, s, caps, k =>
      reMatch r s caps (fun s2 c2 => k s2 (c2 ++ [s.take (s.length - s2.length)]))

/-- `re.search`: try each start position left to right, return the captures
of the first match. -/
def reSearch (r : RE) : List Char → Option (List (List Char))
  | [] => reMatch r [] [] (fun _ caps => some caps)
  | c :: t =>
      match reMatch r (c :: t) [] (fun _ caps => some caps) with
      | some caps => some caps
      | none => reSearch r t

/-! ## `QueryTranslator` (`query_translator.py`) -/

def isAsciiLetter (c : Char) : Bool :=
  ('a' ≤ c ∧ c ≤ 'z') ∨ ('A' ≤ c ∧ c ≤ 'Z')

def isAsciiDigit (c : Char) : Bool := '0' ≤ c ∧ c ≤ '9'

/-- Python's per-character `str.isalnum` (ASCII fragment). -/
def isAlnumChar (c : Char) : Bool := isAsciiLetter c ∨ isAsciiDigit c

/-- `re.sub(rf"\b{word}\b", "", s, flags=re.IGNORECASE)` for an alphabetic
`word`: remove whole-word occurrences, scanning left to right on the
original string.  `prev` is the previously scanned original character, used
for the left word boundary; the fuel is `s.length`. -/
def subWordCIAux (w : List Char) : Nat → Option Char → List Char → List Char
  | 0, _, s => s
  | fuel + 1, prev, s =>
      match s with
      | [] => []
      | c :: rest =>
          let okPrev : Bool := match prev with
            | none => true
            | some p => ! isWordChar p
          let n := w.length
          let okNext : Bool := match (s.drop n).head? with
            | none => true
            | some q => ! isWordChar q
          if 0 < n ∧ pyLower (s.take n) = w ∧ okPrev ∧ okNext then
            subWordCIAux w fuel ((s.take n).getLast? ) (s.drop n)
          else
            c :: subWordCIAux w fuel (some c) rest

def subWordCI (w s : List Char) : List Char := subWordCIAux w s.length none s

/-- `str.replace(pat, repl)`: all non-overlapping occurrences, left to
right. -/
def pyReplaceAux (pat repl : List Char) : Nat → List Char → List Char
  | 0, s => s
  | fuel + 1, s =>
      match s with
      | [] => []
      | c :: rest =>
          if 0 < pat.length ∧ pat.isPrefixOf s then
            repl ++ pyReplaceAux pat repl fuel (s.drop pat.length)
          else
            c :: pyReplaceAux pat repl fuel rest

def pyReplace (pat repl s : List Char) : List Char := pyReplaceAux pat repl s.length s

/-- Filler words removed by `_clean_expression`, in source order. -/
def remove_words : List (List Char) :=
  [("the").data, ("of").data, ("with").data, ("respect").data, ("to").data,
   ("for").data, ("function").data, ("equation").data, ("expression").data,
   ("please").data, ("find").data, ("what").data, ("is").data, ("are").data,
   ("calculate").data, ("compute").data, ("determine").data]

/-- Text-to-symbol replacements of `_clean_expression`, in source order. -/
def word_replacements : List (List Char × List Char) :=
  [(("squared").data, ("**2").data), (("cubed").data, ("**3").data),
   ((" times ").data, ("*").data), ((" plus ").data, ("+").data),
   ((" minus ").data, ("-").data), ((" divided by ").data, ("/").data),
   ((" over ").data, ("/").data)]

/-- `QueryTranslator._clean_expression`. -/
def clean_expression (expr0 : List Char) : List Char :=
  let e1 := pyStrip expr0
  let e2 := pyRstripQ e1
  let e3 := remove_words.foldl (fun e w => subWordCI w e) e2
  let e4 := joinSpace (pySplit e3)
  let e5 := word_replacements.foldl (fun e p => pyReplace p.1 p.2 e) e4
  pyStrip e5

/-- `re.sub(r"(\d)([a-zA-Z])", r"\1*\2", expr)`. -/
def subDigitLetter : List Char → List Char
  | [] => []
  | [c] => [c]
  | c1 :: c2 :: rest =>
      if isAsciiDigit c1 ∧ isAsciiLetter c2 then
        c1 :: '*' :: c2 :: subDigitLetter rest
      else
        c1 :: subDigitLetter (c2 :: rest)

/-- `re.sub(r"\)(\w)", r")*\1", expr)`. -/
def subParenWord : List Char → List Char
  | [] => []
  | [c] => [c]
  | c1 :: c2 :: rest =>
      if c1 = ')' ∧ isWordChar c2 then
        c1 :: '*' :: c2 :: subParenWord rest
      else
        c1 :: subParenWord (c2 :: rest)

/-- Function names preserved by `_to_sympy_syntax`, in source order. -/
def known_functions : List (List Char) :=
  [("sin").data, ("cos").data, ("tan").data, ("sec").data, ("csc").data,
   ("cot").data, ("asin").data, ("acos").data, ("atan").data, ("sinh").data,
   ("cosh").data, ("tanh").data, ("log").data, ("ln").data, ("exp").data,
   ("sqrt").data, ("abs").data, ("diff").data, ("integrate").data,
   ("limit").data, ("solve").data, ("factor").data, ("expand").data,
   ("simplify").data]

/-- First known function `f` such that `expr[i:] `starts with `f ++ "("`. -/
def firstFuncAt (expr : List Char) (i : Nat) : Option (List Char) :=
  known_functions.find? fun f =>
    (expr.drop i).take (f.length + 1) = f ++ ['(']

/-- Membership of `i` in the source's `func_positions` set: a word boundary
followed by a known function name and `(`. -/
def funcPosAt (expr : List Char) (i : Nat) : Bool :=
  (i = 0 ∨ ¬ isWordChar (expr.getD (i - 1) ' ')) ∧ (firstFuncAt expr i).isSome

/-- The single-character implicit-multiplication scan loop of
`_to_sympy_syntax` (the `while i < len(expr)` loop).  Fuel is
`expr.length`; every branch advances `i`. -/
def sympyFuncLoopAux (expr : List Char) : Nat → Nat → List Char
  | 0, _ => []
  | fuel + 1, i =>
      if i < expr.length then
        if funcPosAt expr i then
          match firstFuncAt expr i with
          | some f => (f ++ ['(']) ++ sympyFuncLoopAux expr fuel (i + f.length + 1)
          | none => expr.getD i ' ' :: sympyFuncLoopAux expr fuel (i + 1)
        else if i < expr.length - 1 ∧ isAlnumChar (expr.getD i ' ') ∧
                expr.getD (i + 1) ' ' = '(' then
          if i = 0 ∨ ¬ isAlnumChar (expr.getD (i - 1) ' ') then
            expr.getD i ' ' :: '*' :: '(' :: sympyFuncLoopAux expr fuel (i + 2)
          else
            expr.getD i ' ' :: sympyFuncLoopAux expr fuel (i + 1)
        else
          expr.getD i ' ' :: sympyFuncLoopAux expr fuel (i + 1)
      else []

/-- `QueryTranslator._to_sympy_syntax`. -/
def to_sympy_syntax (expr0 : List Char) : List Char :=
  let e1 := pyReplace [Char.ofNat 94] (("**").data) expr0
  let e2 := subDigitLetter e1
  let e3 := subParenWord e2
  sympyFuncLoopAux e3 e3.length 0

/-- All matches of `re.findall(r"\b([a-z])\b", expr, re.IGNORECASE)`:
single ASCII letters with word boundaries on both sides, in order. -/
def singleLettersAux : Option Char → List Char → List Char
  | _, [] => []
  | prev, c :: rest =>
      let okPrev : Bool := match prev with
        | none => true
        | some p => ! isWordChar p
      let okNext : Bool := match rest with
        | [] => true
        | n :: _ => ! isWordChar n
      if isAsciiLetter c ∧ okPrev ∧ okNext then
        c :: singleLettersAux (some c) rest
      else
        singleLettersAux (some c) rest

/-- `QueryTranslator._extract_variable`. -/
def extract_variable (expr : List Char) : List Char :=
  match (singleLettersAux none expr).find?
      (fun v => ¬ (pyLowerChar v = 'e' ∨ pyLowerChar v = 'i')) with
  | some v => [v]
  | none => ['x']

/-- Result dictionary of `QueryTranslator.translate`.  The `var` field
models the `'variable'` key; `order` and `point` model the keys that only
higher-derivative and limit results carry. -/
structure TransResult where
  operation : List Char
  expression : List Char
  var : List Char
  original : List Char
  order : Option Nat
  point : Option (List Char)
  sympy_format : List Char
  llm_format : List Char
deriving DecidableEq

/-- Shared tail of every `llm_format` prompt. -/
def llmTail : List Char :=
  ("Show your work step by step. State the final answer clearly after \x27The answer is:\x27").data

/-- `QueryTranslator._format_derivative`. -/
def format_derivative (expr0 original : List Char) : TransResult :=
  let expr := clean_expression expr0
  let var := extract_variable expr
  let se := to_sympy_syntax expr
  { operation := ("derivative").data, expression := expr, var := var,
    original := original, order := none, point := none,
    sympy_format := ("diff(").data ++ se ++ (", ").data ++ var ++ (")").data,
    llm_format := ("Find the derivative of ").data ++ expr ++
      (" with respect to ").data ++ var ++ (". ").data ++ llmTail }

/-- `QueryTranslator._format_higher_derivative`. -/
def format_higher_derivative (expr0 : List Char) (op : List Char)
    (original : List Char) : TransResult :=
  let expr := clean_expression expr0
  let var := extract_variable expr
  let order : Nat := if op = ("second_derivative").data then 2 else 3
  let orderText := if order = 2 then ("second").data else ("third").data
  let se := to_sympy_syntax expr
  { operation := op, expression := expr, var := var,
    original := original, order := some order, point := none,
    sympy_format := ("diff(").data ++ se ++ (", ").data ++ var ++ (", ").data ++
      (Nat.repr order).data ++ (")").data,
    llm_format := ("Find the ").data ++ orderText ++ (" derivative of ").data ++
      expr ++ (" with respect to ").data ++ var ++ (". ").data ++ llmTail }

/-- `QueryTranslator._format_integral`. -/
def format_integral (expr0 original : List Char) : TransResult :=
  let expr := clean_expression expr0
  let var := extract_variable expr
  let se := to_sympy_syntax expr
  { operation := ("integral").data, expression := expr, var := var,
    original := original, order := none, point := none,
    sympy_format := ("integrate(").data ++ se ++ (", ").data ++ var ++ (")").data,
    llm_format := ("Find the indefinite integral of ").data ++ expr ++
      (" with respect to ").data ++ var ++ (". ").data ++ llmTail }

/-- `QueryTranslator._format_solve`. -/
def format_solve (expr0 original : List Char) : TransResult :=
  let expr := clean_expression expr0
  let var := extract_variable expr
  let se := to_sympy_syntax expr
  { operation := ("solve").data, expression := expr, var := var,
    original := original, order := none, point := none,
    sympy_format := ("solve(").data ++ se ++ (", ").data ++ var ++ (")").data,
    llm_format := ("Solve the equation: ").data ++ expr ++
      (". Find the value of ").data ++ var ++ (". ").data ++ llmTail }

/-- `QueryTranslator._format_simplify`. -/
def format_simplify (expr0 original : List Char) : TransResult :=
  let expr := clean_expression expr0
  let se := to_sympy_syntax expr
  { operation := ("simplify").data, expression := expr,
    var := extract_variable expr, original := original,
    order := none, point := none,
    sympy_format := ("simplify(").data ++ se ++ (")").data,
    llm_format := ("Simplify the expression: ").data ++ expr ++ (". ").data ++ llmTail }

/-- `QueryTranslator._format_factor`. -/
def format_factor (expr0 original : List Char) : TransResult :=
  let expr := clean_expression expr0
  let se := to_sympy_syntax expr
  { operation := ("factor").data, expression := expr,
    var := extract_variable expr, original := original,
    order := none, point := none,
    sympy_format := ("factor(").data ++ se ++ (")").data,
    llm_format := ("Factor the expression: ").data ++ expr ++ (". ").data ++ llmTail }

/-- `QueryTranslator._format_expand`. -/
def format_expand (expr0 original : List Char) : TransResult :=
  let expr := clean_expression expr0
  let se := to_sympy_syntax expr
  { operation := ("expand").data, expression := expr,
    var := extract_variable expr, original := original,
    order := none, point := none,
    sympy_format := ("expand(").data ++ se ++ (")").data,
    llm_format := ("Expand the expression: ").data ++ expr ++ (". ").data ++ llmTail }

/-- `QueryTranslator._format_general`. -/
def format_general (query : List Char) : TransResult :=
  let expr := clean_expression query
  let se := to_sympy_syntax expr
  { operation := ("general").data, expression := expr,
    var := extract_variable expr, original := query,
    order := none, point := none,
    sympy_format := se,
    llm_format := ("Solve this problem: ").data ++ query ++ (". ").data ++ llmTail }

/-- `QueryTranslator._format_limit` (all limit patterns have 3 groups). -/
def format_limit (caps : List (List Char)) (original : List Char) : TransResult :=
  match caps with
  | [g1, g2, g3] =>
      let expr := clean_expression (pyStrip g1)
      let var := pyStrip g2
      let point := pyStrip g3
      let se := to_sympy_syntax expr
      { operation := ("limit").data, expression := expr, var := var,
        original := original, order := none, point := some point,
        sympy_format := ("limit(").data ++ se ++ (", ").data ++ var ++
          (", ").data ++ point ++ (")").data,
        llm_format := ("Find the limit of ").data ++ expr ++ (" as ").data ++
          var ++ (" approaches ").data ++ point ++ (". ").data ++ llmTail }
  | _ => format_general original

/-- Right-nested sequencing of a pattern list. -/
def seqL : List RE → RE
  | [] => .lit []
  | [r] => r
  | r :: rest => .seq r (seqL rest)

/-- `(.+)` -/
def gAny : RE := .grp (.rep .any true)
/-- `\s+` -/
def wsP : RE := .rep .ws true
/-- `\s*` -/
def wsS : RE := .rep .ws false
/-- `\w+` -/
def wordP : RE := .rep .word true

/-- `derivative_patterns`, in source order. -/
def derivative_patterns : List (RE × List Char) :=
  [(seqL [.lit ("derivative of ").data, gAny], ("derivative").data),
   (seqL [.lit ("differentiate ").data, gAny], ("derivative").data),
   (seqL [.lit ("d/dx").data, wsP, .opt (seqL [.lit ("of").data, wsP]), gAny],
     ("derivative").data),
   (seqL [.lit ("derive ").data, gAny], ("derivative").data),
   (seqL [.lit ("find").data, wsP, .opt (seqL [.lit ("the").data, wsP]),
      .lit ("derivative").data, wsP, .lit ("of ").data, gAny], ("derivative").data),
   (seqL [.alt (.lit ("what is").data) (.lit ("what\x27s").data), wsP,
      .opt (seqL [.lit ("the").data, wsP]),
      .lit ("derivative").data, wsP, .lit ("of ").data, gAny], ("derivative").data)]

/-- `higher_derivative_patterns`, in source order. -/
def higher_derivative_patterns : List (RE × List Char) :=
  [(seqL [.lit ("second derivative of ").data, gAny], ("second_derivative").data),
   (seqL [.lit ("2nd derivative of ").data, gAny], ("second_derivative").data),
   (seqL [.lit ("d2/dx2").data, wsP, .opt (seqL [.lit ("of").data, wsP]), gAny],
     ("second_derivative").data),
   (seqL [.lit ("third derivative of ").data, gAny], ("third_derivative").data)]

/-- `integral_patterns`, in source order. -/
def integral_patterns : List (RE × List Char) :=
  [(seqL [.lit ("integral of ").data, gAny], ("integral").data),
   (seqL [.lit ("integrate ").data, gAny], ("integral").data),
   (seqL [.lit ("∫").data, wsS, gAny, .opt (seqL [wsP, .lit ("dx").data])],
     ("integral").data),
   (seqL [.lit ("find").data, wsP, .opt (seqL [.lit ("the").data, wsP]),
      .lit ("integral").data, wsP, .lit ("of ").data, gAny], ("integral").data),
   (seqL [.alt (.lit ("what is").data) (.lit ("what\x27s").data), wsP,
      .opt (seqL [.lit ("the").data, wsP]),
      .lit ("integral").data, wsP, .lit ("of ").data, gAny], ("integral").data),
   (seqL [.lit ("antiderivative of ").data, gAny], ("integral").data)]

/-- `limit_patterns`, in source order. -/
def limit_patterns : List (RE × List Char) :=
  [(seqL [.lit ("limit of ").data, gAny, .lit (" as ").data, gAny, .lit (" ").data,
      .alt (.lit ("approaches").data) (.alt (.lit ("->").data) (.lit ("→").data)),
      wsS, gAny], ("limit").data),
   (seqL [.lit ("lim").data, wsP, gAny, .lit ("->").data, gAny, wsP,
      .opt (seqL [.lit ("of").data, wsP]), gAny], ("limit").data),
   (seqL [.lit ("limit ").data, gAny, .lit (" at ").data, gAny, wsS,
      .lit ("=").data, wsS, gAny], ("limit").data)]

/-- `solve_patterns`, in source order. -/
def solve_patterns : List (RE × List Char) :=
  [(seqL [.lit ("solve").data, wsP,
      .opt (seqL [.lit ("for").data, wsP, wordP, wsS, .lit (":").data]),
      wsS, gAny], ("solve").data),
   (seqL [.lit ("find").data, wsP, .opt (seqL [wordP, wsP]),
      .alt (.lit ("in").data) (.alt (.lit ("from").data) (.lit ("for").data)),
      wsS, gAny], ("solve").data),
   (seqL [.alt (.lit ("what is").data) (.lit ("what\x27s").data), wsP, gAny,
      wsS, .lit ("?").data], ("solve").data)]

/-- `simplify_patterns`, in source order. -/
def simplify_patterns : List (RE × List Char) :=
  [(seqL [.lit ("simplify ").data, gAny], ("simplify").data),
   (seqL [.lit ("reduce ").data, gAny], ("simplify").data),
   (seqL [.lit ("simplification of ").data, gAny], ("simplify").data)]

/-- `factor_patterns`, in source order. -/
def factor_patterns : List (RE × List Char) :=
  [(seqL [.lit ("factor ").data, gAny], ("factor").data),
   (seqL [.lit ("factorize ").data, gAny], ("factor").data),
   (seqL [.lit ("factorise ").data, gAny], ("factor").data)]

/-- `expand_patterns`, in source order. -/
def expand_patterns : List (RE × List Char) :=
  [(seqL [.lit ("expand ").data, gAny], ("expand").data),
   (seqL [.lit ("expand out ").data, gAny], ("expand").data),
   (seqL [.lit ("multiplication of ").data, gAny], ("expand").data)]

/-- First pattern of the list that `re.search` finds in `ql`, with its
captures and operation tag. -/
def firstSearch (pats : List (RE × List Char)) (ql : List Char) :
    Option (List (List Char) × List Char) :=
  match pats with
  | [] => none
  | (r, op) :: rest =>
      match reSearch r ql with
      | some caps => some (caps, op)
      | none => firstSearch rest ql

/-- `QueryTranslator.translate`: strip, lowercase, then try the pattern
groups in source order (higher derivative, derivative, integral, limit,
factor, expand, simplify, solve), falling through to the general format. -/
def translate (query0 : List Char) : TransResult :=
  let query := pyStrip query0
  let ql := pyLower query
  match firstSearch higher_derivative_patterns ql with
  | some (caps, op) => format_higher_derivative (pyStrip (caps.getD 0 [])) op query
  | none =>
  match firstSearch derivative_patterns ql with
  | some (caps, _) => format_derivative (pyStrip (caps.getD 0 [])) query
  | none =>
  match firstSearch integral_patterns ql with
  | some (caps, _) => format_integral (pyStrip (caps.getD 0 [])) query
  | none =>
  match firstSearch limit_patterns ql with
  | some (caps, _) => format_limit caps query
  | none =>
  match firstSearch factor_patterns ql with
  | some (caps, _) => format_factor (pyStrip (caps.getD 0 [])) query
  | none =>
  match firstSearch expand_patterns ql with
  | some (caps, _) => format_expand (pyStrip (caps.getD 0 [])) query
  | none =>
  match firstSearch simplify_patterns ql with
  | some (caps, _) => format_simplify (pyStrip (caps.getD 0 [])) query
  | none =>
  match firstSearch solve_patterns ql with
  | some (caps, _) => format_solve (pyStrip (caps.getD 0 [])) query
  | none => format_general query

/-- The eight pattern groups tried by `translate`, in dispatch order. -/
def allPatternGroups : List (List (RE × List Char)) :=
  [higher_derivative_patterns, derivative_patterns, integral_patterns,
   limit_patterns, factor_patterns, expand_patterns, simplify_patterns,
   solve_patterns]

/-- A query matches none of the translator's classification rules. -/
def matchesNoRule (query0 : List Char) : Bool :=
  allPatternGroups.all fun pats =>
    (firstSearch pats (pyLower (pyStrip query0))).isNone

/-! ## `MathQueryRouter` (`calculator_engine.py`) -/

/-- The three cascade layers.  In the spec's vocabulary: `sympy` is the
symbolic backend, `wolfram` the knowledge-service backend, `llm` the
generative backend. -/
inductive Backend
  | sympy
  | wolfram
  | llm
deriving DecidableEq

def SYMPY_KEYWORDS : List (List Char) :=
  [("solve").data, ("simplify").data, ("expand").data, ("factor").data,
   ("differentiate").data, ("integrate").data, ("derivative").data,
   ("limit").data, ("matrix").data, ("determinant").data,
   ("eigenvalue").data, ("roots").data, ("equation").data]

def WOLFRAM_KEYWORDS : List (List Char) :=
  [("convert").data, ("plot").data, ("graph").data, ("distribution").data,
   ("statistics").data, ("mean").data, ("median").data,
   ("standard deviation").data, ("prime").data, ("taylor series").data,
   ("fourier").data, ("numerical").data, ("approximate").data,
   ("speed of").data, ("mass of").data, ("molecular").data,
   ("atomic").data, ("chemical").data]

def LLM_KEYWORDS : List (List Char) :=
  [("prove").data, ("explain").data, ("why").data, ("word problem").data,
   ("alice").data, ("bob").data, ("train").data, ("proof").data,
   ("show that").data, ("demonstrate").data, ("compare").data,
   ("strategy").data, ("approach").data, ("understand").data,
   ("reasoning").data]

/-- `sum(1 for kw in KEYWORDS if kw in query_lower)`. -/
def keywordScore (kws : List (List Char)) (ql : List Char) : Nat :=
  (kws.filter fun kw => containsSub ql kw).length

/-- The proof/explanation markers checked first by `route_query`. -/
def proof_markers : List (List Char) :=
  [("prove").data, ("proof").data, ("explain").data, ("why").data,
   ("show that").data]

/-- An execution plan as returned by `MathQueryRouter.route_query`. -/
structure Routing where
  primary : Backend
  fallback_order : List Backend
  confidence : ℚ
  reasoning : List Char
deriving DecidableEq

/-- `MathQueryRouter._is_word_problem`. -/
def is_word_problem (query : List Char) : Bool :=
  let ql := pyLower query
  let i1 : Bool := (pySplit query).length > 15
  let i2 : Bool := [("alice").data, ("bob").data, ("train").data, ("car").data,
      ("store").data].any fun name => containsSub ql name
  let i3 : Bool := containsSub query (("?").data) &&
      ! ([("=").data, ("d/dx").data, ("∫").data].any fun op => containsSub query op)
  let i4 : Bool := [("if ").data, ("then").data, ("how many").data,
      ("how much").data].any fun w => containsSub ql w
  (if i1 then 1 else 0) + (if i2 then 1 else 0) +
    (if i3 then 1 else 0) + (if i4 then 1 else 0) ≥ 2

/-- `MathQueryRouter.route_query`. -/
def route_query (query : List Char) : Routing :=
  let ql := pyLower query
  if proof_markers.any (fun kw => containsSub ql kw) then
    { primary := .llm, fallback_order := [], confidence := 19/20,
      reasoning := ("Requires explanation or proof").data }
  else if is_word_problem query then
    { primary := .llm, fallback_order := [], confidence := 9/10,
      reasoning := ("Word problem detected").data }
  else
    let sympy_score := keywordScore SYMPY_KEYWORDS ql
    let wolfram_score := keywordScore WOLFRAM_KEYWORDS ql
    let llm_score := keywordScore LLM_KEYWORDS ql
    if sympy_score > max wolfram_score llm_score then
      { primary := .sympy, fallback_order := [.wolfram, .llm], confidence := 4/5,
        reasoning := ("SymPy keywords detected (score: ").data ++
          (Nat.repr sympy_score).data ++ (")").data }
    else if wolfram_score > llm_score then
      { primary := .wolfram, fallback_order := [.llm], confidence := 3/4,
        reasoning := ("Wolfram keywords detected (score: ").data ++
          (Nat.repr wolfram_score).data ++ (")").data }
    else
      { primary := .sympy, fallback_order := [.wolfram, .llm], confidence := 3/5,
        reasoning := ("No strong indicators, defaulting to SymPy → cascade").data }

/-! ## Result payloads (`CalculatorEngine.solve` return dictionaries) -/

/-- The dictionary returned by `CalculatorEngine.solve`.  `source = none`
models the string `'none'` of the failure dictionary; `from_cache = none`
models the absence of the `'from_cache'` key (the failure dictionary does
not carry it). -/
structure SolveResult where
  success : Bool
  result : Option (List Char)
  source : Option Backend
  response_time : ℚ
  cascade_path : List Backend
  routing_confidence : ℚ
  error : Option (List Char)
  from_cache : Option Bool
deriving DecidableEq

/-! ## `QueryCache` / `SmartCache` (`query_cache.py`)

Wall-clock time is a `ℚ` measured in hours (the code stores ISO datetime
strings and compares them consistently with time order; TTLs are
`timedelta(hours=...)`).  The durable tier's file I/O always succeeds in the
model (the code logs and swallows its errors). -/

structure CacheEntry where
  query : List Char
  result : SolveResult
  cached_at : ℚ
  last_accessed : ℚ
  expires_at : Option ℚ
deriving DecidableEq

/-- Association-list lookup keyed by strings (Python `dict` access). -/
def lookupA {β : Type} (m : List (List Char × β)) (k : List Char) : Option β :=
  (m.find? fun p => decide (p.1 = k)).map fun p => p.2

/-- Python `d[k] = v`: update in place if present (dicts keep the original
insertion position), otherwise append. -/
def insertA {β : Type} (m : List (List Char × β)) (k : List Char) (v : β) :
    List (List Char × β) :=
  if (lookupA m k).isSome then
    m.map fun p => if p.1 = k then (k, v) else p
  else m ++ [(k, v)]

/-- Python `del d[k]` / file unlink. -/
def removeA {β : Type} (m : List (List Char × β)) (k : List Char) :
    List (List Char × β) :=
  m.filter fun p => ! decide (p.1 = k)

/-- `min(keys, key=last_accessed)`: first key of minimal `last_accessed`
in iteration (insertion) order. -/
def argminLA (m : List (List Char × CacheEntry)) : Option (List Char) :=
  (m.foldl (fun acc p =>
    match acc with
    | none => some p
    | some q => if p.2.last_accessed < q.2.last_accessed then some p else some q)
    none).map fun p => p.1

structure CacheState where
  memory : List (List Char × CacheEntry)
  disk : List (List Char × CacheEntry)
  max_memory_entries : Nat
  default_ttl_hours : ℚ
  hits : Nat
  misses : Nat
  saves : Nat
  evictions : Nat
  query_frequency : List (List Char × Nat)
deriving DecidableEq

/-- `QueryCache._is_valid`. -/
def is_valid (now : ℚ) (e : CacheEntry) : Bool :=
  match e.expires_at with
  | none => true
  | some t => now < t

/-- `QueryCache._add_to_memory`: LRU eviction when full, then insert.
(When the memory tier is empty with `max_memory_entries = 0` the code
would raise on `min([])`; that branch is unreachable with the default
configuration and is modelled as a no-op.) -/
def add_to_memory (st : CacheState) (k : List Char) (e : CacheEntry) : CacheState :=
  let st1 :=
    if st.memory.length ≥ st.max_memory_entries then
      match argminLA st.memory with
      | some oldest => { st with memory := removeA st.memory oldest,
                                 evictions := st.evictions + 1 }
      | none => st
    else st
  { st1 with memory := insertA st1.memory k e }

/-- Durable-tier fallback of `QueryCache.get` (the part after the memory
lookup). -/
def diskCheck (q : List Char) (now : ℚ) (st : CacheState) :
    Option SolveResult × CacheState :=
  let key := hash_query q
  match lookupA st.disk key with
  | some e =>
      if is_valid now e then
        let e' := { e with last_accessed := now }
        (some e'.result, add_to_memory { st with hits := st.hits + 1 } key e')
      else
        (none, { st with disk := removeA st.disk key, misses := st.misses + 1 })
  | none => (none, { st with misses := st.misses + 1 })

/-- `QueryCache.get`. -/
def queryGet (q : List Char) (now : ℚ) (st : CacheState) :
    Option SolveResult × CacheState :=
  let key := hash_query q
  match lookupA st.memory key with
  | some e =>
      if is_valid now e then
        let e' := { e with last_accessed := now }
        (some e.result, { st with hits := st.hits + 1,
                                  memory := insertA st.memory key e' })
      else
        diskCheck q now { st with memory := removeA st.memory key }
  | none => diskCheck q now st

/-- `QueryCache.set`. -/
def querySet (q : List Char) (r : SolveResult) (ttl_hours : Option ℚ)
    (now : ℚ) (st : CacheState) : CacheState :=
  let key := hash_query q
  let expires : Option ℚ :=
    match ttl_hours with
    | some t => if t = 0 then none else some (now + t)
    | none => some (now + st.default_ttl_hours)
  let e : CacheEntry := { query := q, result := r, cached_at := now,
                          last_accessed := now, expires_at := expires }
  let st1 := add_to_memory st key e
  { st1 with disk := insertA st1.disk key e, saves := st1.saves + 1 }

/-- The arithmetic-operator set of `SmartCache.set`. -/
def arith_ops : List (List Char) :=
  [("+").data, ("-").data, ("*").data, ("/").data, [Char.ofNat 94]]

/-- The proof/explanation markers of `SmartCache.set`. -/
def smart_markers : List (List Char) :=
  [("prove").data, ("explain").data, ("why").data]

/-- `any(op in query for op in ['+','-','*','/','^']) and '=' not in query`:
the pure-arithmetic test of `SmartCache.set` (on the original text). -/
def pure_arithmetic (q : List Char) : Bool :=
  (arith_ops.any fun op => containsSub q op) && ! containsSub q (("=").data)

/-- `any(kw in query_lower for kw in ['prove','explain','why'])`: the
proof/explanation test of `SmartCache.set`. -/
def has_marker (q : List Char) : Bool :=
  smart_markers.any fun kw => containsSub (pyLower q) kw

/-- The smart TTL (in hours) that `SmartCache.set` derives from the query
text when no explicit TTL is given. -/
def smartTTLHours (q : List Char) : ℚ :=
  if pure_arithmetic q then 24 * 7
  else if has_marker q then 24
  else 24 * 3

/-- `SmartCache.set`. -/
def smartSet (q : List Char) (r : SolveResult) (ttl_hours : Option ℚ)
    (now : ℚ) (st : CacheState) : CacheState :=
  match ttl_hours with
  | some t => querySet q r (some t) now st
  | none => querySet q r (some (smartTTLHours q)) now st

/-- `SmartCache.get`: frequency tracking, then the plain cache read. -/
def smartGet (q : List Char) (now : ℚ) (st : CacheState) :
    Option SolveResult × CacheState :=
  let key := hash_query q
  let freq := (lookupA st.query_frequency key).getD 0
  queryGet q now { st with query_frequency := insertA st.query_frequency key (freq + 1) }

/-! ## `CalculatorEngine.solve` -/

structure EngineStats where
  total_queries : Nat
  sympy_successes : Nat
  wolfram_successes : Nat
  llm_successes : Nat
  total_failures : Nat
  avg_response_time : ℚ
  cascade_triggered : Nat
deriving DecidableEq

/-- The fields of a handler result dictionary that `solve` reads.  -/
structure Attempt where
  success : Bool
  result : Option (List Char)
  formatted : Option (List Char)
deriving DecidableEq

/-- Per-call oracle: what each `_try_*` helper would return (`none` models
the swallowed-exception path), the measured elapsed time, and the wall
clock used for cache timestamps. -/
structure Env where
  tryS : Option Attempt
  tryW : Option Attempt
  tryL : Option Attempt
  elapsed : ℚ
  now : ℚ
deriving DecidableEq

structure EngineState where
  stats : EngineStats
  cache : CacheState
  cache_enabled : Bool
  wolfram_enabled : Bool
deriving DecidableEq

def attemptOf (env : Env) : Backend → Option Attempt
  | .sympy => env.tryS
  | .wolfram => env.tryW
  | .llm => env.tryL

/-- Python `result.get('result') or result.get('formatted')` (empty strings
are falsy). -/
def pyOrStr (a b : Option (List Char)) : Option (List Char) :=
  match a with
  | some s => if s.isEmpty then b else some s
  | none => b

/-- The `for layer in execution_order` loop of `solve`: walk the plan,
skipping a disabled Wolfram layer after recording it in the path, until an
attempt succeeds.  Returns the successful layer and attempt (if any) and
the accumulated `cascade_path`. -/
def runLayers (env : Env) (wolfram_enabled : Bool) :
    List Backend → List Backend → Option (Backend × Attempt) × List Backend
  | [], path => (none, path)
  | b :: rest, path =>
      let path' := path ++ [b]
      if b = .wolfram ∧ ¬ wolfram_enabled then
        runLayers env wolfram_enabled rest path'
      else
        match attemptOf env b with
        | some a =>
            if a.success then (some (b, a), path')
            else runLayers env wolfram_enabled rest path'
        | none => runLayers env wolfram_enabled rest path'

/-- The routing used on a cache miss: the user-forced single-layer plan if
`force_layer` is given, otherwise the router's plan. -/
def forceRouting (router : List Char → Routing) (query : List Char) :
    Option Backend → Routing
  | some f => { primary := f, fallback_order := [], confidence := 1,
                reasoning := ("User-specified layer").data }
  | none => router query

/-- The tail of `solve` after the cascade walk: statistics update and cache
write on success, failure dictionary on exhaustion. -/
def finishSolve (env : Env) (query : List Char) (st : EngineState)
    (stats1 : EngineStats) (routing : Routing) :
    Option (Backend × Attempt) × List Backend → SolveResult × EngineState
  | (some (layer, a), path) =>
      let stats2 :=
        match layer with
        | .sympy => { stats1 with sympy_successes := stats1.sympy_successes + 1 }
        | .wolfram => { stats1 with wolfram_successes := stats1.wolfram_successes + 1 }
        | .llm => { stats1 with llm_successes := stats1.llm_successes + 1 }
      let stats3 :=
        if path.length > 1 then
          { stats2 with cascade_triggered := stats2.cascade_triggered + 1 }
        else stats2
      let n : ℚ := stats3.total_queries
      let stats4 := { stats3 with
        avg_response_time := (stats3.avg_response_time * (n - 1) + env.elapsed) / n }
      let final : SolveResult :=
        { success := true,
          result := pyOrStr a.result a.formatted,
          source := some layer,
          response_time := env.elapsed,
          cascade_path := path,
          routing_confidence := routing.confidence,
          error := none,
          from_cache := some false }
      let cache' :=
        if st.cache_enabled then smartSet query final none env.now st.cache
        else st.cache
      (final, { st with stats := stats4, cache := cache' })
  | (none, path) =>
      let statsF := { stats1 with total_failures := stats1.total_failures + 1 }
      ({ success := false, result := none, source := none,
         response_time := env.elapsed, cascade_path := path,
         routing_confidence := routing.confidence,
         error := some ("All layers failed to solve the query").data,
         from_cache := none },
       { st with stats := statsF })

/-- The cache-miss part of `solve` (statistics bump, routing, cascade walk,
statistics update and cache write on success). -/
def solveLive (router : List Char → Routing) (env : Env) (query : List Char)
    (force_layer : Option Backend) (st : EngineState) : SolveResult × EngineState :=
  let stats1 := { st.stats with total_queries := st.stats.total_queries + 1 }
  let routing := forceRouting router query force_layer
  finishSolve env query st stats1 routing
    (runLayers env st.wolfram_enabled (routing.primary :: routing.fallback_order) [])

/-- `CalculatorEngine.solve`, parametrised by the router so that the
"router not invoked" frame claims can be stated extensionally.  On a cache
hit the returned dictionary aliases the stored entry's `result`, so the
in-place mutation of `response_time` / `from_cache` is reflected in the
memory tier. -/
def solveWith (router : List Char → Routing) (env : Env) (query : List Char)
    (force_layer : Option Backend) (st : EngineState) : SolveResult × EngineState :=
  if st.cache_enabled ∧ force_layer = none then
    match smartGet query env.now st.cache with
    | (some r, cache1) =>
        let r' := { r with response_time := 1/1000, from_cache := some true }
        let key := hash_query query
        let cache2 := { cache1 with
          memory := cache1.memory.map fun p =>
            if p.1 = key then (p.1, { p.2 with result := r' }) else p }
        (r', { st with cache := cache2 })
    | (none, cache1) =>
        solveLive router env query force_layer { st with cache := cache1 }
  else
    solveLive router env query force_layer st

/-- `CalculatorEngine.solve` with the engine's own router. -/
def solve (env : Env) (query : List Char) (force_layer : Option Backend)
    (st : EngineState) : SolveResult × EngineState :=
  solveWith route_query env query force_layer st

/-! ## Spec-side comparison definitions and concrete fixtures -/

/-- Modelled from the spec: the fallback order §4.2 prescribes — "remaining
enabled backends in fixed priority (symbolic > knowledge-service >
generative), excluding primary" — with every backend enabled.  For
comparison with `route_query`'s actual fallback order. -/
def specFallback (primary : Backend) : List Backend :=
  [Backend.sympy, Backend.wolfram, Backend.llm].filter fun b => ! decide (b = primary)

/-- Modelled from the spec: two query texts "differing only in
case/whitespace" (§8 fingerprint stability) — equal after erasing all
whitespace and lowercasing. -/
def sameUpToCaseWs (a b : List Char) : Bool :=
  pyLower (a.filter fun c => ! isPySpace c) = pyLower (b.filter fun c => ! isPySpace c)

/-- A handler oracle outcome that does not yield a success (exception or
`success = False`). -/
def attemptFails (o : Option Attempt) : Bool :=
  match o with
  | none => true
  | some a => ! a.success

def zeroStats : EngineStats :=
  { total_queries := 0, sympy_successes := 0, wolfram_successes := 0,
    llm_successes := 0, total_failures := 0, avg_response_time := 0,
    cascade_triggered := 0 }

/-- A fresh `SmartCache` state (empty tiers, defaults from `__init__`). -/
def emptyCache : CacheState :=
  { memory := [], disk := [], max_memory_entries := 100,
    default_ttl_hours := 24, hits := 0, misses := 0, saves := 0,
    evictions := 0, query_frequency := [] }

def failA : Attempt := { success := false, result := none, formatted := none }

def okA : Attempt :=
  { success := true, result := some (("4").data), formatted := none }

/-- Oracle under which every handler fails. -/
def envAllFail : Env :=
  { tryS := some failA, tryW := some failA, tryL := some failA,
    elapsed := 1, now := 0 }

/-- Oracle under which the symbolic handler succeeds. -/
def envSympyOk : Env :=
  { tryS := some okA, tryW := some failA, tryL := some failA,
    elapsed := 2, now := 0 }

/-- Engine state with caching disabled and Wolfram disabled. -/
def stNoCache : EngineState :=
  { stats := zeroStats, cache := emptyCache, cache_enabled := false,
    wolfram_enabled := false }

/-- Engine state with caching enabled and Wolfram disabled. -/
def stCacheOn : EngineState :=
  { stats := zeroStats, cache := emptyCache, cache_enabled := true,
    wolfram_enabled := false }

/-- A cached payload used to pre-populate cache fixtures. -/
def cachedPayload : SolveResult :=
  { success := true, result := some (("4").data), source := some .sympy,
    response_time := 2, cascade_path := [.sympy], routing_confidence := 3/5,
    error := none, from_cache := some false }

/-- A valid (unexpired, for times `< 72`) cache entry for `"2 + 2"`. -/
def entry22 : CacheEntry :=
  { query := ("2 + 2").data, result := cachedPayload, cached_at := 0,
    last_accessed := 0, expires_at := some 72 }

/-- Engine state whose memory tier already holds `"2 + 2"`. -/
def stWithHit : EngineState :=
  { stats := zeroStats,
    cache := { emptyCache with
      memory := [(hash_query (("2 + 2").data), entry22)] },
    cache_enabled := true, wolfram_enabled := false }

/-- Oracle for a call made at time `1` whose handlers would all fail. -/
def envHit : Env :=
  { tryS := some failA, tryW := some failA, tryL := some failA,
    elapsed := 5, now := 1 }

/-- Oracle for a later call, made at time `2`. -/
def envHit2 : Env :=
  { tryS := some failA, tryW := some failA, tryL := some failA,
    elapsed := 7, now := 2 }

/-- An arbitrary constant plan, used to contrast two different routers. -/
def constRouting : Routing :=
  { primary := .llm, fallback_order := [], confidence := 0, reasoning := [] }

/-! ## Association-list lemmas -/

theorem lookupA_cons {β : Type} (hd : List Char × β) (tl : List (List Char × β))
    (k : List Char) :
    lookupA (hd :: tl) k = if hd.1 = k then some hd.2 else lookupA tl k := by
  by_cases h : hd.1 = k
  · simp [lookupA, List.find?_cons_of_pos, h]
  · simp [lookupA, List.find?_cons_of_neg, h]

theorem lookupA_append {β : Type} (m1 m2 : List (List Char × β)) (k : List Char) :
    lookupA (m1 ++ m2) k =
      match lookupA m1 k with
      | some v => some v
      | none => lookupA m2 k := by
  induction m1 with
  | nil => simp [lookupA]
  | cons hd tl ih =>
      by_cases h : hd.1 = k <;> simp [lookupA_cons, h, ih]

/-- A `d[k] = v` write is observable at `k`. -/
theorem lookupA_insertA_self {β : Type} (m : List (List Char × β)) (k : List Char)
    (v : β) :
    lookupA (insertA m k v) k = some v := by
  unfold insertA
  by_cases h : (lookupA m k).isSome
  · simp only [h, if_true]
    induction m with
    | nil => simp [lookupA] at h
    | cons hd tl ih =>
        by_cases hk : hd.1 = k
        · simp [lookupA_cons, hk]
        · simp only [lookupA_cons, hk, if_false] at h
          simp [List.map_cons, lookupA_cons, hk, ih h]
  · have h0 : (lookupA m k).isSome = false := by simpa using h
    simp only [h0, Bool.false_eq_true, if_false]
    rw [lookupA_append]
    simp only [Option.not_isSome_iff_eq_none] at h
    rw [h]
    simp [lookupA_cons]

/-- Updating the payload stored at `k` in place is observable at `k`. -/
theorem lookupA_map_result (m : List (List Char × CacheEntry)) (k : List Char)
    (r' : SolveResult) :
    lookupA (m.map fun p => if p.1 = k then (p.1, { p.2 with result := r' }) else p) k =
      (lookupA m k).map fun e => { e with result := r' } := by
  induction m with
  | nil => simp [lookupA]
  | cons hd tl ih =>
      by_cases h : hd.1 = k
      · simp [lookupA_cons, h]
      · simp [lookupA_cons, h, ih]

/-- `_add_to_memory` leaves the new entry observable at its key. -/
theorem add_to_memory_lookup (st : CacheState) (k : List Char) (e : CacheEntry) :
    lookupA (add_to_memory st k e).memory k = some e := by
  unfold add_to_memory
  exact lookupA_insertA_self _ _ _

/-- The entry a `QueryCache.set` stores, in full. -/
theorem querySet_memory_lookup (q : List Char) (r : SolveResult)
    (ttl : Option ℚ) (now : ℚ) (st : CacheState) :
    lookupA (querySet q r ttl now st).memory (hash_query q) =
      some { query := q, result := r, cached_at := now, last_accessed := now,
             expires_at :=
               match ttl with
               | some t => if t = 0 then none else some (now + t)
               | none => some (now + st.default_ttl_hours) } := by
  unfold querySet add_to_memory
  split <;> simp [lookupA_insertA_self]

/-- A `SmartCache.set` stores the given payload at the query's fingerprint. -/
theorem smartSet_lookup_result (q : List Char) (r : SolveResult)
    (ttl : Option ℚ) (now : ℚ) (st : CacheState) :
    ∃ e, lookupA (smartSet q r ttl now st).memory (hash_query q) = some e ∧
      e.result = r := by
  unfold smartSet
  cases ttl with
  | none => exact ⟨_, querySet_memory_lookup q r _ now st, rfl⟩
  | some t => exact ⟨_, querySet_memory_lookup q r _ now st, rfl⟩

/-! ## Claim C10 -/

/-- C10: a cache write with `ttl_hours = 0` stores an entry with no expiry
timestamp, every later read treats it as valid, and a later `get` at any
time returns the cached payload — a TTL of 0 means "cache forever", not
"do not cache". -/
theorem claim10_ttl_zero_caches_forever (q : List Char) (r : SolveResult)
    (now now2 : ℚ) (st : CacheState) :
    ∃ e, lookupA (querySet q r (some 0) now st).memory (hash_query q) = some e ∧
      e.expires_at = none ∧ is_valid now2 e = true ∧
      (queryGet q now2 (querySet q r (some 0) now st)).1 = some r := by
  have h := querySet_memory_lookup q r (some 0) now st
  simp only [if_pos] at h
  refine ⟨_, h, rfl, rfl, ?_⟩
  unfold queryGet
  simp [h, is_valid]

/-! ## Claim C7 -/

/-- C7: with no explicit TTL, `SmartCache.set` chooses the entry's expiry
from the original query text alone — 7 days (168 h) for pure-arithmetic
text (operator present, no equality), 1 day (24 h) for proof/explanation
text, 3 days (72 h) otherwise — independently of the stored result, i.e.
of which backend answered. -/
theorem claim7_smart_ttl_policy (q : List Char) (r : SolveResult) (now : ℚ)
    (st : CacheState) :
    ∃ e, lookupA (smartSet q r none now st).memory (hash_query q) = some e ∧
      e.expires_at = some (now +
        (if pure_arithmetic q then (168 : ℚ) else if has_marker q then 24 else 72)) ∧
      ∀ r' : SolveResult, ∃ e',
        lookupA (smartSet q r' none now st).memory (hash_query q) = some e' ∧
        e'.expires_at = e.expires_at := by
  have httl : smartTTLHours q =
      (if pure_arithmetic q then (168 : ℚ) else if has_marker q then 24 else 72) := by
    unfold smartTTLHours
    split_ifs <;> norm_num
  have hne : ¬ smartTTLHours q = 0 := by
    unfold smartTTLHours
    split_ifs <;> norm_num
  have h := querySet_memory_lookup q r (some (smartTTLHours q)) now st
  simp only [if_neg hne] at h
  refine ⟨{ query := q, result := r, cached_at := now, last_accessed := now,
            expires_at := some (now + smartTTLHours q) }, ?_, ?_, ?_⟩
  · unfold smartSet
    exact h
  · simp [httl]
  · intro r'
    have h' := querySet_memory_lookup q r' (some (smartTTLHours q)) now st
    simp only [if_neg hne] at h'
    exact ⟨{ query := q, result := r', cached_at := now, last_accessed := now,
             expires_at := some (now + smartTTLHours q) },
           by unfold smartSet; exact h', rfl⟩

/-! ## Claim C9 -/

/-- C9: any query containing a proof/explanation marker is routed to a
generative-only plan with confidence 0.95 and no fallback, regardless of
keyword scores. -/
theorem claim9_proof_marker_override (q : List Char)
    (h : (proof_markers.any fun kw => containsSub (pyLower q) kw) = true) :
    route_query q =
      { primary := .llm, fallback_order := [], confidence := 19/20,
        reasoning := ("Requires explanation or proof").data } := by
  unfold route_query
  simp [h]

theorem claim9_witness :
    (proof_markers.any fun kw =>
        containsSub (pyLower (("prove that sqrt(2) is irrational").data)) kw) = true ∧
    route_query (("prove that sqrt(2) is irrational").data) =
      { primary := .llm, fallback_order := [], confidence := 19/20,
        reasoning := ("Requires explanation or proof").data } :=
  ⟨by decide, claim9_proof_marker_override _ (by decide)⟩

/-! ## Claim C2 -/

/-- C2 fails on the code: for `"is 91 prime"` no override fires and the
primary is the knowledge-service backend, but the fallback order is
`[generative]` — the symbolic backend is dropped, contradicting the
claimed "remaining enabled backends in fixed priority". -/
theorem claim2_counterexample :
    (proof_markers.any fun kw => containsSub (pyLower (("is 91 prime").data)) kw) = false ∧
    is_word_problem (("is 91 prime").data) = false ∧
    (route_query (("is 91 prime").data)).primary = Backend.wolfram ∧
    (route_query (("is 91 prime").data)).fallback_order = [Backend.llm] ∧
    ¬ (route_query (("is 91 prime").data)).fallback_order =
        specFallback (route_query (("is 91 prime").data)).primary := by decide

/-- C2 amended: with no override, the router picks the symbolic backend
(fallback knowledge-service then generative) only when its score strictly
exceeds both other scores; otherwise the knowledge-service backend with
fallback `[generative]` alone (the symbolic backend is not in that
fallback) when its score strictly exceeds the generative score; otherwise
the symbolic backend with fallback `[knowledge-service, generative]`.
Enabled-ness is never consulted.  In particular all-zero scores give the
default symbolic-first plan with confidence 0.6. -/
theorem claim2_router_scoring_amended (q : List Char)
    (h1 : (proof_markers.any fun kw => containsSub (pyLower q) kw) = false)
    (h2 : is_word_problem q = false) :
    (route_query q).primary =
      (if keywordScore SYMPY_KEYWORDS (pyLower q) >
          max (keywordScore WOLFRAM_KEYWORDS (pyLower q))
              (keywordScore LLM_KEYWORDS (pyLower q))
       then Backend.sympy
       else if keywordScore WOLFRAM_KEYWORDS (pyLower q) >
              keywordScore LLM_KEYWORDS (pyLower q)
       then Backend.wolfram
       else Backend.sympy) ∧
    (route_query q).fallback_order =
      (if keywordScore SYMPY_KEYWORDS (pyLower q) >
          max (keywordScore WOLFRAM_KEYWORDS (pyLower q))
              (keywordScore LLM_KEYWORDS (pyLower q))
       then [Backend.wolfram, Backend.llm]
       else if keywordScore WOLFRAM_KEYWORDS (pyLower q) >
              keywordScore LLM_KEYWORDS (pyLower q)
       then [Backend.llm]
       else [Backend.wolfram, Backend.llm]) ∧
    (keywordScore SYMPY_KEYWORDS (pyLower q) = 0 ∧
     keywordScore WOLFRAM_KEYWORDS (pyLower q) = 0 ∧
     keywordScore LLM_KEYWORDS (pyLower q) = 0 →
       (route_query q).primary = Backend.sympy ∧
       (route_query q).fallback_order = [Backend.wolfram, Backend.llm] ∧
       (route_query q).confidence = 3/5) := by
  unfold route_query
  simp only [h1, h2, Bool.false_eq_true, if_false]
  refine ⟨?_, ?_, ?_⟩
  · split_ifs <;> rfl
  · split_ifs <;> rfl
  · rintro ⟨hs, hw, hl⟩
    simp [hs, hw, hl]

theorem claim2_witness :
    (proof_markers.any fun kw =>
        containsSub (pyLower (("is 91 prime").data)) kw) = false ∧
    is_word_problem (("is 91 prime").data) = false ∧
    ((route_query (("is 91 prime").data)).primary =
      (if keywordScore SYMPY_KEYWORDS (pyLower (("is 91 prime").data)) >
          max (keywordScore WOLFRAM_KEYWORDS (pyLower (("is 91 prime").data)))
              (keywordScore LLM_KEYWORDS (pyLower (("is 91 prime").data)))
       then Backend.sympy
       else if keywordScore WOLFRAM_KEYWORDS (pyLower (("is 91 prime").data)) >
              keywordScore LLM_KEYWORDS (pyLower (("is 91 prime").data))
       then Backend.wolfram
       else Backend.sympy) ∧
    (route_query (("is 91 prime").data)).fallback_order =
      (if keywordScore SYMPY_KEYWORDS (pyLower (("is 91 prime").data)) >
          max (keywordScore WOLFRAM_KEYWORDS (pyLower (("is 91 prime").data)))
              (keywordScore LLM_KEYWORDS (pyLower (("is 91 prime").data)))
       then [Backend.wolfram, Backend.llm]
       else if keywordScore WOLFRAM_KEYWORDS (pyLower (("is 91 prime").data)) >
              keywordScore LLM_KEYWORDS (pyLower (("is 91 prime").data))
       then [Backend.llm]
       else [Backend.wolfram, Backend.llm]) ∧
    (keywordScore SYMPY_KEYWORDS (pyLower (("is 91 prime").data)) = 0 ∧
     keywordScore WOLFRAM_KEYWORDS (pyLower (("is 91 prime").data)) = 0 ∧
     keywordScore LLM_KEYWORDS (pyLower (("is 91 prime").data)) = 0 →
       (route_query (("is 91 prime").data)).primary = Backend.sympy ∧
       (route_query (("is 91 prime").data)).fallback_order =
         [Backend.wolfram, Backend.llm] ∧
       (route_query (("is 91 prime").data)).confidence = 3/5)) :=
  ⟨by decide, by decide, claim2_router_scoring_amended _ (by decide) (by decide)⟩

/-! ## Cache-read lemmas -/

/-- A `diskCheck` hit leaves the promoted entry in the memory tier. -/
theorem diskCheck_hit_entry (q : List Char) (now : ℚ) (cst : CacheState)
    (res : SolveResult) (c1 : CacheState)
    (h : diskCheck q now cst = (some res, c1)) :
    ∃ e, lookupA c1.memory (hash_query q) = some e ∧ e.result = res := by
  unfold diskCheck at h
  rcases hd : lookupA cst.disk (hash_query q) with _ | e0
  · simp only [hd] at h
    simp at h
  · simp only [hd] at h
    by_cases hv : is_valid now e0 = true
    · rw [if_pos hv] at h
      have h1 := congrArg Prod.fst h
      have h2 := congrArg Prod.snd h
      simp only at h1 h2
      refine ⟨{ e0 with last_accessed := now }, ?_, ?_⟩
      · rw [← h2]
        exact add_to_memory_lookup _ _ _
      · simpa using h1
    · rw [if_neg hv] at h
      simp at h

/-- A `QueryCache.get` hit leaves the returned entry in the memory tier. -/
theorem queryGet_hit_entry (q : List Char) (now : ℚ) (cst : CacheState)
    (res : SolveResult) (c1 : CacheState)
    (h : queryGet q now cst = (some res, c1)) :
    ∃ e, lookupA c1.memory (hash_query q) = some e ∧ e.result = res := by
  unfold queryGet at h
  rcases hm : lookupA cst.memory (hash_query q) with _ | e0
  · simp only [hm] at h
    exact diskCheck_hit_entry q now cst res c1 h
  · simp only [hm] at h
    by_cases hv : is_valid now e0 = true
    · rw [if_pos hv] at h
      have h1 := congrArg Prod.fst h
      have h2 := congrArg Prod.snd h
      simp only at h1 h2
      refine ⟨{ e0 with last_accessed := now }, ?_, ?_⟩
      · rw [← h2]
        exact lookupA_insertA_self _ _ _
      · simpa using h1
    · rw [if_neg hv] at h
      exact diskCheck_hit_entry q now _ res c1 h

/-- A `SmartCache.get` hit leaves the returned entry in the memory tier. -/
theorem smartGet_hit_entry (q : List Char) (now : ℚ) (cst : CacheState)
    (res : SolveResult) (c1 : CacheState)
    (h : smartGet q now cst = (some res, c1)) :
    ∃ e, lookupA c1.memory (hash_query q) = some e ∧ e.result = res := by
  unfold smartGet at h
  exact queryGet_hit_entry q now _ res c1 h

/-! ## Cascade-executor lemmas -/

/-- A successful `finishSolve` leaves its own result cached under the
query's fingerprint (caching enabled). -/
theorem finishSolve_success_entry (env : Env) (q : List Char) (st : EngineState)
    (s : EngineStats) (rt : Routing) (out : Option (Backend × Attempt) × List Backend)
    (hce : st.cache_enabled = true)
    (hs : (finishSolve env q st s rt out).1.success = true) :
    ∃ e, lookupA (finishSolve env q st s rt out).2.cache.memory (hash_query q) = some e ∧
      e.result = (finishSolve env q st s rt out).1 := by
  rcases out with ⟨o, path⟩
  cases o with
  | none => simp [finishSolve] at hs
  | some p =>
      rcases p with ⟨layer, a⟩
      simp only [finishSolve, hce, if_true]
      exact smartSet_lookup_result q _ none env.now st.cache

theorem solveLive_success_entry (router : List Char → Routing) (env : Env)
    (q : List Char) (f : Option Backend) (st : EngineState)
    (hce : st.cache_enabled = true)
    (hs : (solveLive router env q f st).1.success = true) :
    ∃ e, lookupA (solveLive router env q f st).2.cache.memory (hash_query q) = some e ∧
      e.result = (solveLive router env q f st).1 := by
  unfold solveLive at hs ⊢
  exact finishSolve_success_entry _ _ _ _ _ _ hce hs

/-- Any successful `solve` call (hit or live) leaves the returned payload
cached in the memory tier under the query's fingerprint. -/
theorem solveWith_success_entry (router : List Char → Routing) (env : Env)
    (q : List Char) (f : Option Backend) (st : EngineState)
    (hce : st.cache_enabled = true)
    (hs : (solveWith router env q f st).1.success = true) :
    ∃ e, lookupA (solveWith router env q f st).2.cache.memory (hash_query q) = some e ∧
      e.result = (solveWith router env q f st).1 := by
  unfold solveWith at hs ⊢
  by_cases hc : st.cache_enabled = true ∧ f = none
  · rw [if_pos hc] at hs ⊢
    rcases hsg : smartGet q env.now st.cache with ⟨o, c1⟩
    simp only [hsg] at hs ⊢
    cases o with
    | some res =>
        obtain ⟨e0, he0, hr0⟩ := smartGet_hit_entry q env.now st.cache res c1 hsg
        simp only []
        rw [lookupA_map_result, he0]
        exact ⟨_, rfl, by simp [hr0]⟩
    | none =>
        exact solveLive_success_entry router env q f _ hce hs
  · rw [if_neg hc] at hs ⊢
    exact solveLive_success_entry router env q f st hce hs

/-- The payload `finishSolve` returns does not depend on the engine state. -/
theorem finishSolve_fst_state (env : Env) (q : List Char) (st st' : EngineState)
    (s : EngineStats) (rt : Routing) (out : Option (Backend × Attempt) × List Backend) :
    (finishSolve env q st s rt out).1 = (finishSolve env q st' s rt out).1 := by
  rcases out with ⟨o, path⟩
  cases o with
  | none => rfl
  | some p => rcases p with ⟨layer, a⟩; rfl

/-- The returned `cascade_path` is exactly the walked path. -/
theorem finishSolve_path (env : Env) (q : List Char) (st : EngineState)
    (s : EngineStats) (rt : Routing) (out : Option (Backend × Attempt) × List Backend) :
    (finishSolve env q st s rt out).1.cascade_path = out.2 := by
  rcases out with ⟨o, path⟩
  cases o with
  | none => rfl
  | some p => rcases p with ⟨layer, a⟩; rfl

theorem finishSolve_cache_enabled (env : Env) (q : List Char) (st : EngineState)
    (s : EngineStats) (rt : Routing) (out : Option (Backend × Attempt) × List Backend) :
    (finishSolve env q st s rt out).2.cache_enabled = st.cache_enabled := by
  rcases out with ⟨o, path⟩
  cases o with
  | none => rfl
  | some p => rcases p with ⟨layer, a⟩; rfl

/-- `solve` never flips the caching flag. -/
theorem solveWith_cache_enabled (router : List Char → Routing) (env : Env)
    (q : List Char) (f : Option Backend) (st : EngineState) :
    (solveWith router env q f st).2.cache_enabled = st.cache_enabled := by
  unfold solveWith solveLive
  by_cases hc : st.cache_enabled = true ∧ f = none
  · rw [if_pos hc]
    rcases hsg : smartGet q env.now st.cache with ⟨o, c1⟩
    cases o with
    | some res => simp [hsg]
    | none => simp [hsg, finishSolve_cache_enabled]
  · rw [if_neg hc]
    exact finishSolve_cache_enabled _ _ _ _ _ _

/-- A single-layer plan always walks the path `[X]`, whether the layer
succeeds, fails, or is skipped as disabled. -/
theorem runLayers_single_path (env : Env) (w : Bool) (X : Backend) :
    (runLayers env w [X] []).2 = [X] := by
  unfold runLayers
  split
  · rfl
  · split
    · split
      · rfl
      · rfl
    · rfl

/-- Forcing a layer skips the cache read unconditionally. -/
theorem solveWith_force (router : List Char → Routing) (env : Env) (q : List Char)
    (X : Backend) (st : EngineState) :
    solveWith router env q (some X) st = solveLive router env q (some X) st := by
  unfold solveWith
  simp

/-- When every enabled layer fails (and Wolfram is disabled), the walk
consumes the whole plan and returns no success. -/
theorem runLayers_all_fail (env : Env) (order acc : List Backend)
    (hS : attemptFails env.tryS = true) (hL : attemptFails env.tryL = true) :
    runLayers env false order acc = (none, acc ++ order) := by
  induction order generalizing acc with
  | nil => simp [runLayers]
  | cons b rest ih =>
      cases b with
      | wolfram => simp [runLayers, ih]
      | sympy =>
          rcases hts : env.tryS with _ | a
          · simp [runLayers, attemptOf, hts, ih]
          · have ha : a.success = false := by
              rw [hts] at hS
              simpa [attemptFails] using hS
            simp [runLayers, attemptOf, hts, ha, ih]
      | llm =>
          rcases htl : env.tryL with _ | a
          · simp [runLayers, attemptOf, htl, ih]
          · have ha : a.success = false := by
              rw [htl] at hL
              simpa [attemptFails] using hL
            simp [runLayers, attemptOf, htl, ha, ih]

/-- With Wolfram disabled, the walk never consults the Wolfram handler. -/
theorem runLayers_tryW_irrelevant (env : Env) (w : Option Attempt)
    (order acc : List Backend) :
    runLayers { env with tryW := w } false order acc =
      runLayers env false order acc := by
  induction order generalizing acc with
  | nil => rfl
  | cons b rest ih =>
      cases b with
      | wolfram => simp [runLayers, ih]
      | sympy =>
          simp only [runLayers, attemptOf]
          cases henv : env.tryS with
          | none =>
              rw [henv] at ih
              simpa using ih (acc ++ [Backend.sympy])
          | some a =>
              rw [henv] at ih
              by_cases hs : a.success = true
              · simp [hs]
              · simpa [hs] using ih (acc ++ [Backend.sympy])
      | llm =>
          simp only [runLayers, attemptOf]
          cases henv : env.tryL with
          | none =>
              rw [henv] at ih
              simpa using ih (acc ++ [Backend.llm])
          | some a =>
              rw [henv] at ih
              by_cases hs : a.success = true
              · simp [hs]
              · simpa [hs] using ih (acc ++ [Backend.llm])

/-- The router only ever produces one of three plans. -/
theorem route_plan_cases (q : List Char) :
    (route_query q).primary :: (route_query q).fallback_order = [Backend.llm] ∨
    (route_query q).primary :: (route_query q).fallback_order =
      [Backend.sympy, Backend.wolfram, Backend.llm] ∨
    (route_query q).primary :: (route_query q).fallback_order =
      [Backend.wolfram, Backend.llm] := by
  unfold route_query
  by_cases h1 : (proof_markers.any fun kw => containsSub (pyLower q) kw) = true
  · rw [if_pos h1]; left; rfl
  · rw [if_neg h1]
    by_cases h2 : is_word_problem q = true
    · rw [if_pos h2]; left; rfl
    · rw [if_neg h2]
      simp only []
      by_cases h3 : keywordScore SYMPY_KEYWORDS (pyLower q) >
          max (keywordScore WOLFRAM_KEYWORDS (pyLower q))
              (keywordScore LLM_KEYWORDS (pyLower q))
      · rw [if_pos h3]; right; left; rfl
      · rw [if_neg h3]
        by_cases h4 : keywordScore WOLFRAM_KEYWORDS (pyLower q) >
            keywordScore LLM_KEYWORDS (pyLower q)
        · rw [if_pos h4]; right; right; rfl
        · rw [if_neg h4]; right; left; rfl

theorem route_plan_nodup (q : List Char) :
    ((route_query q).primary :: (route_query q).fallback_order).Nodup := by
  rcases route_plan_cases q with h | h | h <;> rw [h] <;> decide

/-- `finishSolve` reads nothing from the Wolfram oracle. -/
theorem finishSolve_tryW (env : Env) (w : Option Attempt) (q : List Char)
    (st : EngineState) (s : EngineStats) (rt : Routing)
    (out : Option (Backend × Attempt) × List Backend) :
    finishSolve { env with tryW := w } q st s rt out = finishSolve env q st s rt out := by
  rcases out with ⟨o, path⟩
  cases o with
  | none => rfl
  | some p => rcases p with ⟨layer, a⟩; rfl

/-- Exhaustion of a live cascade with Wolfram disabled. -/
theorem solveLive_exhausted (router : List Char → Routing) (env : Env)
    (q : List Char) (st : EngineState)
    (hw : st.wolfram_enabled = false)
    (hS : attemptFails env.tryS = true) (hL : attemptFails env.tryL = true) :
    (solveLive router env q none st).1.success = false ∧
    (solveLive router env q none st).1.cascade_path =
      (router q).primary :: (router q).fallback_order := by
  unfold solveLive forceRouting
  rw [hw]
  simp only []
  rw [runLayers_all_fail env _ [] hS hL]
  exact ⟨rfl, rfl⟩

/-- A cache hit returns the stored payload with the latency and cache
fields overwritten. -/
theorem solveWith_hit_result (router : List Char → Routing) (env : Env)
    (q : List Char) (st : EngineState) (e : CacheEntry)
    (hce : st.cache_enabled = true)
    (hlook : lookupA st.cache.memory (hash_query q) = some e)
    (hval : is_valid env.now e = true) :
    (solveWith router env q none st).1 =
      { e.result with response_time := 1/1000, from_cache := some true } := by
  unfold solveWith
  rw [if_pos ⟨hce, rfl⟩]
  have hsg : smartGet q env.now st.cache =
      (some e.result,
        { st.cache with
            query_frequency := insertA st.cache.query_frequency (hash_query q)
              ((lookupA st.cache.query_frequency (hash_query q)).getD 0 + 1),
            hits := st.cache.hits + 1,
            memory := insertA st.cache.memory (hash_query q)
              { e with last_accessed := env.now } }) := by
    unfold smartGet queryGet
    simp [hlook, hval]
  simp only [hsg]

/-! ## Claim C5 -/

/-- C5: a call answered from the cache is independent of the router (the
router is never invoked) and leaves every engine statistic — total-query
counter, per-backend success counters, cascade counter, running-average
latency — unchanged. -/
theorem claim5_cache_hit_frame (r1 r2 : List Char → Routing) (env : Env)
    (q : List Char) (st : EngineState)
    (hce : st.cache_enabled = true)
    (hhit : ((smartGet q env.now st.cache).1).isSome = true) :
    (solveWith r1 env q none st).1 = (solveWith r2 env q none st).1 ∧
    (solveWith r1 env q none st).2 = (solveWith r2 env q none st).2 ∧
    (solveWith r1 env q none st).2.stats = st.stats := by
  rcases hsg : smartGet q env.now st.cache with ⟨o, c1⟩
  rw [hsg] at hhit
  cases o with
  | none => simp at hhit
  | some res =>
      unfold solveWith
      simp [hce, hsg]

theorem claim5_witness :
    stWithHit.cache_enabled = true ∧
    ((smartGet (("2 + 2").data) envHit.now stWithHit.cache).1).isSome = true ∧
    ((solveWith route_query envHit (("2 + 2").data) none stWithHit).1 =
      (solveWith (fun _ => constRouting) envHit (("2 + 2").data) none stWithHit).1 ∧
    (solveWith route_query envHit (("2 + 2").data) none stWithHit).2 =
      (solveWith (fun _ => constRouting) envHit (("2 + 2").data) none stWithHit).2 ∧
    (solveWith route_query envHit (("2 + 2").data) none stWithHit).2.stats =
      stWithHit.stats) :=
  ⟨by decide, by decide,
   claim5_cache_hit_frame route_query (fun _ => constRouting) envHit
     (("2 + 2").data) stWithHit (by decide) (by decide)⟩

/-! ## Claim C4 -/

/-- C4: `solve(text, force_layer=X)` always walks exactly `[X]` (whatever
the keyword scores — the router is never invoked, so any two routers give
the same output), performs no cache read (the payload is the same whatever
the cache holds), and on success still writes the payload to the cache. -/
theorem claim4_force_backend_bypass (env : Env) (q : List Char) (X : Backend)
    (st : EngineState) (router2 : List Char → Routing) (c : CacheState)
    (hce : st.cache_enabled = true) :
    (solve env q (some X) st).1.cascade_path = [X] ∧
    solveWith router2 env q (some X) st = solve env q (some X) st ∧
    (solveWith route_query env q (some X) { st with cache := c }).1 =
      (solve env q (some X) st).1 ∧
    ((solve env q (some X) st).1.success = true →
      ∃ e, lookupA (solve env q (some X) st).2.cache.memory (hash_query q) = some e ∧
        e.result = (solve env q (some X) st).1) := by
  refine ⟨?_, ?_, ?_, ?_⟩
  · rw [solve, solveWith_force]
    unfold solveLive
    rw [finishSolve_path]
    exact runLayers_single_path env st.wolfram_enabled X
  · rw [solve, solveWith_force, solveWith_force]
    unfold solveLive forceRouting
    rfl
  · rw [solve, solveWith_force, solveWith_force]
    unfold solveLive
    exact finishSolve_fst_state _ _ _ _ _ _ _
  · exact solveWith_success_entry route_query env q (some X) st hce

theorem claim4_witness :
    stCacheOn.cache_enabled = true ∧
    ((solve envSympyOk (("2 + 2").data) (some Backend.sympy) stCacheOn).1.cascade_path =
      [Backend.sympy] ∧
    solveWith (fun _ => constRouting) envSympyOk (("2 + 2").data)
        (some Backend.sympy) stCacheOn =
      solve envSympyOk (("2 + 2").data) (some Backend.sympy) stCacheOn ∧
    (solveWith route_query envSympyOk (("2 + 2").data) (some Backend.sympy)
        { stCacheOn with cache := emptyCache }).1 =
      (solve envSympyOk (("2 + 2").data) (some Backend.sympy) stCacheOn).1 ∧
    ((solve envSympyOk (("2 + 2").data) (some Backend.sympy) stCacheOn).1.success = true →
      ∃ e, lookupA (solve envSympyOk (("2 + 2").data) (some Backend.sympy)
          stCacheOn).2.cache.memory (hash_query (("2 + 2").data)) = some e ∧
        e.result = (solve envSympyOk (("2 + 2").data) (some Backend.sympy) stCacheOn).1)) :=
  ⟨by decide,
   claim4_force_backend_bypass envSympyOk (("2 + 2").data) Backend.sympy stCacheOn
     (fun _ => constRouting) emptyCache (by decide)⟩

/-! ## Claim C1 -/

/-- C1 fails on the code: with the Wolfram layer administratively disabled
and every enabled layer failing, the disabled layer still appears in the
returned path (it is appended before the `continue`). -/
theorem claim1_counterexample :
    stNoCache.wolfram_enabled = false ∧
    (solve envAllFail (("zzz").data) none stNoCache).1.success = false ∧
    Backend.wolfram ∈ (solve envAllFail (("zzz").data) none stNoCache).1.cascade_path := by
  decide

/-- C1 amended: a disabled backend stays in the execution plan and is
appended to the returned path, but it is never executed (the output does
not depend on the Wolfram oracle).  When every enabled backend fails and
the cache does not answer, `success = false` and the path is the full plan
— primary then fallbacks — each planned backend exactly once, in plan
order, disabled backends included. -/
theorem claim1_disabled_backend_in_path (env : Env) (q : List Char)
    (st : EngineState) (w : Option Attempt)
    (hw : st.wolfram_enabled = false)
    (hmiss : st.cache_enabled = false ∨ (smartGet q env.now st.cache).1 = none)
    (hS : attemptFails env.tryS = true)
    (hL : attemptFails env.tryL = true) :
    (solve env q none st).1.success = false ∧
    (solve env q none st).1.cascade_path =
      (route_query q).primary :: (route_query q).fallback_order ∧
    ((route_query q).primary :: (route_query q).fallback_order).Nodup ∧
    solve { env with tryW := w } q none st = solve env q none st := by
  have h12 : (solve env q none st).1.success = false ∧
      (solve env q none st).1.cascade_path =
        (route_query q).primary :: (route_query q).fallback_order := by
    unfold solve solveWith
    rcases hmiss with hm | hm
    · rw [if_neg (by simp [hm])]
      exact solveLive_exhausted route_query env q st hw hS hL
    · by_cases hce : st.cache_enabled = true
      · rw [if_pos ⟨hce, rfl⟩]
        rcases hsg : smartGet q env.now st.cache with ⟨o, c1⟩
        rw [hsg] at hm
        simp only at hm
        subst hm
        simp only [hsg]
        exact solveLive_exhausted route_query env q { st with cache := c1 } hw hS hL
      · rw [if_neg (by simp [hce])]
        exact solveLive_exhausted route_query env q st hw hS hL
  refine ⟨h12.1, h12.2, route_plan_nodup q, ?_⟩
  unfold solve solveWith
  by_cases hc : st.cache_enabled = true
  · rw [if_pos ⟨hc, rfl⟩, if_pos ⟨hc, rfl⟩]
    rcases hsg : smartGet q env.now st.cache with ⟨o, c1⟩
    have hsg' : smartGet q ({ env with tryW := w } : Env).now st.cache = (o, c1) := hsg
    simp only [hsg, hsg']
    cases o with
    | some res => rfl
    | none =>
        show solveLive route_query { env with tryW := w } q none { st with cache := c1 } =
          solveLive route_query env q none { st with cache := c1 }
        unfold solveLive forceRouting
        rw [finishSolve_tryW]
        have hwc : ({ st with cache := c1 } : EngineState).wolfram_enabled = false := hw
        rw [hwc, runLayers_tryW_irrelevant]
  · rw [if_neg (by simp [hc]), if_neg (by simp [hc])]
    unfold solveLive forceRouting
    rw [finishSolve_tryW, hw, runLayers_tryW_irrelevant]

theorem claim1_witness :
    stNoCache.wolfram_enabled = false ∧
    (stNoCache.cache_enabled = false ∨
      (smartGet (("zzz").data) envAllFail.now stNoCache.cache).1 = none) ∧
    attemptFails envAllFail.tryS = true ∧
    attemptFails envAllFail.tryL = true ∧
    ((solve envAllFail (("zzz").data) none stNoCache).1.success = false ∧
    (solve envAllFail (("zzz").data) none stNoCache).1.cascade_path =
      (route_query (("zzz").data)).primary ::
        (route_query (("zzz").data)).fallback_order ∧
    ((route_query (("zzz").data)).primary ::
        (route_query (("zzz").data)).fallback_order).Nodup ∧
    solve { envAllFail with tryW := some okA } (("zzz").data) none stNoCache =
      solve envAllFail (("zzz").data) none stNoCache) :=
  ⟨by decide, Or.inl (by decide), by decide, by decide,
   claim1_disabled_backend_in_path envAllFail (("zzz").data) stNoCache (some okA)
     (by decide) (Or.inl (by decide)) (by decide) (by decide)⟩

/-! ## Claim C3 -/

/-- C3: with caching on and no forced backend, if a first `solve` call
succeeds then a second call with the identical text (made while the stored
entry is still unexpired) returns the same payload, with `from_cache =
true` and the near-zero reported latency `0.001`. -/
theorem claim3_cache_idempotence (env1 env2 : Env) (q : List Char)
    (st0 : EngineState)
    (hce : st0.cache_enabled = true)
    (hs : (solve env1 q none st0).1.success = true)
    (hv : ((lookupA (solve env1 q none st0).2.cache.memory (hash_query q)).all
        fun e => is_valid env2.now e) = true) :
    (solve env2 q none (solve env1 q none st0).2).1 =
      { (solve env1 q none st0).1 with
          response_time := 1/1000, from_cache := some true } := by
  simp only [solve] at hs hv ⊢
  obtain ⟨e, hlook, hres⟩ := solveWith_success_entry route_query env1 q none st0 hce hs
  have hval : is_valid env2.now e = true := by
    rw [hlook] at hv
    simpa using hv
  have hce1 : (solveWith route_query env1 q none st0).2.cache_enabled = true := by
    rw [solveWith_cache_enabled]
    exact hce
  rw [solveWith_hit_result route_query env2 q _ e hce1 hlook hval, hres]

theorem claim3_witness :
    stWithHit.cache_enabled = true ∧
    (solve envHit (("2 + 2").data) none stWithHit).1.success = true ∧
    ((lookupA (solve envHit (("2 + 2").data) none stWithHit).2.cache.memory
        (hash_query (("2 + 2").data))).all
      fun e => is_valid envHit2.now e) = true ∧
    (solve envHit2 (("2 + 2").data) none
        (solve envHit (("2 + 2").data) none stWithHit).2).1 =
      { (solve envHit (("2 + 2").data) none stWithHit).1 with
          response_time := 1/1000, from_cache := some true } :=
  ⟨by decide, by decide, by decide,
   claim3_cache_idempotence envHit envHit2 (("2 + 2").data) stWithHit
     (by decide) (by decide) (by decide)⟩

/-! ## String-normalisation lemmas -/

theorem dropWhile_ws_append (w s : List Char)
    (hw : ∀ c ∈ w, isPySpace c = true) :
    (w ++ s).dropWhile isPySpace = s.dropWhile isPySpace := by
  induction w with
  | nil => rfl
  | cons c t ih =>
      have hc : isPySpace c = true := hw c (by simp)
      simp only [List.cons_append, List.dropWhile_cons, hc, if_true]
      exact ih fun x hx => hw x (by simp [hx])

theorem dropWhile_ws_all (w : List Char) (hw : ∀ c ∈ w, isPySpace c = true) :
    w.dropWhile isPySpace = [] := by
  have := dropWhile_ws_append w [] hw
  simpa using this

/-- Leading whitespace does not affect `str.strip()`. -/
theorem pyStrip_ws_left (w s : List Char) (hw : ∀ c ∈ w, isPySpace c = true) :
    pyStrip (w ++ s) = pyStrip s := by
  unfold pyStrip
  rw [dropWhile_ws_append w s hw]

/-- Trailing whitespace does not affect `str.strip()`. -/
theorem pyStrip_ws_right (s w : List Char) (hw : ∀ c ∈ w, isPySpace c = true) :
    pyStrip (s ++ w) = pyStrip s := by
  unfold pyStrip
  rcases hd : s.dropWhile isPySpace with _ | ⟨c, t⟩
  · rw [List.dropWhile_append, hd]
    simp only [List.isEmpty_nil, if_true]
    rw [dropWhile_ws_all w hw]
  · rw [List.dropWhile_append, hd]
    simp only [List.isEmpty_cons, Bool.false_eq_true, if_false]
    have : ((c :: t) ++ w).reverse = w.reverse ++ (c :: t).reverse :=
      List.reverse_append _ _
    rw [this]
    rw [dropWhile_ws_append w.reverse (c :: t).reverse
      (fun x hx => hw x (List.mem_reverse.mp hx))]

/-- `str.lower` fixes whitespace characters. -/
theorem pyLowerChar_ws (c : Char) (h : isPySpace c = true) : pyLowerChar c = c := by
  simp only [isPySpace, Bool.or_eq_true, decide_eq_true_eq] at h
  rcases h with h | h | h | h | h | h <;> subst h <;> decide

theorem pyLower_ws (w : List Char) (hw : ∀ c ∈ w, isPySpace c = true) :
    pyLower w = w := by
  unfold pyLower
  induction w with
  | nil => rfl
  | cons c t ih =>
      simp only [List.map_cons]
      rw [pyLowerChar_ws c (hw c (by simp)), ih fun x hx => hw x (by simp [hx])]

/-! ## Claim C6 -/

/-- C6 fails on the code: `"2 + 2"` matches none of the translator's rules
and is classified `general`, and here the symbolic rendering does equal
the trimmed original, but the generative rendering is an instructional
prompt wrapping the query, not the trimmed original text. -/
theorem claim6_counterexample :
    matchesNoRule (("2 + 2").data) = true ∧
    (translate (("2 + 2").data)).operation = ("general").data ∧
    (translate (("2 + 2").data)).sympy_format = ("2 + 2").data ∧
    ¬ (translate (("2 + 2").data)).llm_format = pyStrip (("2 + 2").data) := by
  decide

/-- C6 amended: a query matching none of the classification rules is
classified `general`; its symbolic rendering is the cleaned expression
converted to SymPy syntax (which equals the trimmed original only when
cleaning is a no-op), and its generative rendering is the instructional
prompt `"Solve this problem: <query>. …"` built around the trimmed
original — not the trimmed original itself. -/
theorem claim6_no_match_general (q : List Char) (h : matchesNoRule q = true) :
    translate q = format_general (pyStrip q) ∧
    (translate q).operation = ("general").data ∧
    (translate q).sympy_format = to_sympy_syntax (clean_expression (pyStrip q)) ∧
    (translate q).llm_format =
      ("Solve this problem: ").data ++ pyStrip q ++ (". ").data ++ llmTail := by
  simp only [matchesNoRule, allPatternGroups, List.all_cons, List.all_nil,
    Bool.and_eq_true, Option.isNone_iff_eq_none, and_true] at h
  obtain ⟨h1, h2, h3, h4, h5, h6, h7, h8⟩ := h
  have hg : translate q = format_general (pyStrip q) := by
    unfold translate
    simp only []
    rw [h1, h2, h3, h4, h5, h6, h7, h8]
  refine ⟨hg, ?_, ?_, ?_⟩ <;> rw [hg] <;> simp only [format_general]

theorem claim6_witness :
    matchesNoRule (("2 + 2").data) = true ∧
    (translate (("2 + 2").data) = format_general (pyStrip (("2 + 2").data)) ∧
    (translate (("2 + 2").data)).operation = ("general").data ∧
    (translate (("2 + 2").data)).sympy_format =
      to_sympy_syntax (clean_expression (pyStrip (("2 + 2").data))) ∧
    (translate (("2 + 2").data)).llm_format =
      ("Solve this problem: ").data ++ pyStrip (("2 + 2").data) ++ (". ").data ++ llmTail) :=
  ⟨by decide, claim6_no_match_general _ (by decide)⟩

/-! ## Claim C8 -/

/-- C8 fails on the code: `"2 +2"` and `"2 + 2"` differ only in whitespace
yet receive different fingerprints — normalisation only lowercases and
trims the ends, it does not touch interior whitespace. -/
theorem claim8_counterexample :
    sameUpToCaseWs (("2 +2").data) (("2 + 2").data) = true ∧
    ¬ hash_query (("2 +2").data) = hash_query (("2 + 2").data) := by
  decide

/-- C8 amended: queries differing only in letter case and/or *leading or
trailing* whitespace share a fingerprint, and the second query therefore
hits a cache entry written for the first (shown here for a never-expiring
entry). -/
theorem claim8_fingerprint_stability (core q w1 w2 : List Char) (r : SolveResult)
    (now now2 : ℚ) (st : CacheState)
    (hw1 : ∀ c ∈ w1, isPySpace c = true) (hw2 : ∀ c ∈ w2, isPySpace c = true)
    (hcase : pyLower q = pyLower core) :
    hash_query (w1 ++ q ++ w2) = hash_query core ∧
    (queryGet (w1 ++ q ++ w2) now2 (querySet core r (some 0) now st)).1 = some r := by
  have e1 : pyLower (w1 ++ q ++ w2) = w1 ++ (pyLower q ++ w2) := by
    simp only [pyLower, List.map_append]
    rw [show List.map pyLowerChar w1 = w1 from pyLower_ws w1 hw1,
        show List.map pyLowerChar w2 = w2 from pyLower_ws w2 hw2]
    rw [List.append_assoc]
  have hnorm : pyStrip (pyLower (w1 ++ q ++ w2)) = pyStrip (pyLower core) := by
    rw [e1, pyStrip_ws_left w1 _ hw1, pyStrip_ws_right _ w2 hw2, hcase]
  have hkey : hash_query (w1 ++ q ++ w2) = hash_query core := by
    unfold hash_query
    rw [hnorm]
  refine ⟨hkey, ?_⟩
  have h := querySet_memory_lookup core r (some 0) now st
  simp only [if_pos] at h
  unfold queryGet
  rw [hkey]
  simp [h, is_valid]

theorem claim8_witness :
    (∀ c ∈ (" ").data, isPySpace c = true) ∧
    (∀ c ∈ ("\x09").data, isPySpace c = true) ∧
    pyLower (("2 + 2").data) = pyLower (("2 + 2").data) ∧
    (hash_query ((" ").data ++ ("2 + 2").data ++ ("\x09").data) =
      hash_query (("2 + 2").data) ∧
    (queryGet ((" ").data ++ ("2 + 2").data ++ ("\x09").data) 5
        (querySet (("2 + 2").data) cachedPayload (some 0) 0 emptyCache)).1 =
      some cachedPayload) :=
  ⟨by decide, by decide, rfl,
   claim8_fingerprint_stability (("2 + 2").data) (("2 + 2").data)
     ((" ").data) (("\x09").data) cachedPayload 0 5 emptyCache
     (by decide) (by decide) rfl⟩

end Cascade
